import Mathlib

/-!
Verification of the groundlight/video-intelligence core against its
natural-language specification.

The development shallowly embeds the three parts of the repository the
claims are about:

* `src/framework/prefetcher.py` (`FramePrefetcher`): modelled as a state
  machine.  The Python class protects `buffer` and `in_progress` with a
  single lock; every lock-protected region (`_schedule_prefetch`, the body
  of `_store_frame_callback`, and the pop-and-advance section of
  `get_frame`) becomes one atomic transition.  Worker nondeterminism is the
  free choice of which completion transition fires next.
* `src/demo/robot_frames.py` (`RobotFrame`): pure functions over a
  two-field metadata record, with the external Groundlight query passed in
  as data and the number of issued external queries returned explicitly.
* `src/framework/frames.py` (`Frame.load_metadata`): a pure function from
  the optional persisted record and the caller defaults to the in-memory
  record and the record written back, with Python-dict semantics modelled
  by association lists.
-/

deriving instance DecidableEq for Except

set_option maxRecDepth 8192

/-- The dictionary returned by `FramePrefetcher._get_frame`:
`{"index": index, "result": result}`. -/
structure FrameResult (α : Type) where
  index : Nat
  result : α
deriving DecidableEq, Repr

/-- State of a `FramePrefetcher` (`src/framework/prefetcher.py`).
`indicies`, `buffer_size`, `current_index`, `buffer` and `in_progress` are
the attributes of the Python object; `num_workers` is the `max_workers`
bound of its thread pool.  The Python `buffer` dict is modelled as an
association list of results keyed by their `index` field. -/
structure PState (α : Type) where
  indicies : List Nat
  buffer_size : Nat
  num_workers : Nat
  current_index : Nat
  buffer : List (FrameResult α)
  in_progress : Finset Nat
deriving DecidableEq

/-- Models `set(self.buffer.keys())` in `_schedule_prefetch`. -/
def bufferKeys {α : Type} (s : PState α) : Finset Nat :=
  (s.buffer.map FrameResult.index).toFinset

/-- Models `set(self.indicies[self.current_index : self.current_index + self.buffer_size])`. -/
def neededIndices {α : Type} (s : PState α) : Finset Nat :=
  ((s.indicies.drop s.current_index).take s.buffer_size).toFinset

/-- Models `needed_indices - current_buffer_indices - self.in_progress`. -/
def indicesToFetch {α : Type} (s : PState α) : Finset Nat :=
  (neededIndices s \ bufferKeys s) \ s.in_progress

/-- Models `_schedule_prefetch`: under the lock, every index in `indices_to_fetch`
is added to `in_progress` and submitted to the pool.  The submission itself
is represented by membership in `in_progress`; the task body runs later as
a completion transition. -/
def schedulePrefetch {α : Type} (s : PState α) : PState α :=
  { s with in_progress := s.in_progress ∪ indicesToFetch s }

/-- Python dict assignment `self.buffer[r.index] = r`: replace the entry in
place if the key is present, otherwise append at the end. -/
def dictInsert {α : Type} (r : FrameResult α) (buf : List (FrameResult α)) :
    List (FrameResult α) :=
  if r.index ∈ buf.map FrameResult.index then
    buf.map (fun x => if x.index = r.index then r else x)
  else
    buf ++ [r]

/-- Models `_get_frame(index)`: builds the frame, runs the configured action `act`
on it and returns `{"index": index, "result": act index}`. -/
def mkFrameResult {α : Type} (act : Nat → α) (index : Nat) : FrameResult α :=
  { index := index, result := act index }

/-- Models `_store_frame_callback(future)`: if `future.result()` succeeds, store
the result in `buffer` keyed by its `index` and remove that index from
`in_progress` (both under the lock).  If `future.result()` raises, the
`except` branch prints the error and re-raises inside the done-callback;
neither `buffer` nor `in_progress` is touched, so the state is unchanged. -/
def storeFrameCallback {α : Type} (res : Except String (FrameResult α))
    (s : PState α) : PState α :=
  match res with
  | Except.ok r =>
      { s with buffer := dictInsert r s.buffer,
               in_progress := s.in_progress.erase r.index }
  | Except.error _ => s

/-- Dictionary pop: `popKey k buf` is Python `buf.pop(k)` on the dict modelled as an
association list — return the entry whose `index` field is `k` together
with the remaining buffer, or `none` when the key is absent. -/
def popKey {α : Type} (k : Nat) : List (FrameResult α) →
    Option (FrameResult α × List (FrameResult α))
  | [] => none
  | r :: rest =>
      if r.index = k then some (r, rest)
      else (popKey k rest).map (fun p => (p.1, r :: p.2))

/-- The message of the `ValueError` raised by `get_frame` on an
out-of-order request. -/
def outOfOrderMessage (index expected : Nat) : String :=
  s!"Index requested {index} is out of order. This class expects frames to be consumed in the order specified by indicies passed to the constructor. It expected {expected} to be requested next."

/-- Possible outcomes of one call to `get_frame` evaluated against an
instantaneous state:  `indexError` models the `IndexError` of
`self.indicies[self.current_index]` when the cursor is past the end;
`outOfOrder` the explicit `ValueError`; `blocked` the polling wait loop
finding the expected index not yet buffered; `ok` the successful
pop-advance-reschedule path. -/
inductive GetOutcome (α : Type) where
  | indexError
  | outOfOrder (message : String)
  | blocked
  | ok (r : FrameResult α) (s : PState α)
deriving DecidableEq

/-- Models `get_frame(index)`: reject anything but `indicies[current_index]`;
otherwise (once the wait loop observes the entry) pop it from the buffer,
advance the cursor, and call `_schedule_prefetch`. -/
def getFrame {α : Type} (s : PState α) (index : Nat) : GetOutcome α :=
  match s.indicies[s.current_index]? with
  | none => GetOutcome.indexError
  | some expected =>
      if index ≠ expected then
        GetOutcome.outOfOrder (outOfOrderMessage index expected)
      else
        match popKey expected s.buffer with
        | none => GetOutcome.blocked
        | some (r, buf1) =>
            GetOutcome.ok r (schedulePrefetch
              { s with buffer := buf1, current_index := s.current_index + 1 })

/-- Models `FramePrefetcher.__init__`: dispatch on the action name (an unknown
name raises `ValueError`); create the thread pool
(`ThreadPoolExecutor(max_workers=num_workers)` raises `ValueError` for a
non-positive worker count); initialize the attributes and run the first
`_schedule_prefetch`.  No other parameter validation is performed. -/
def framePrefetcherInit (α : Type) (indicies : List Nat)
    (buffer_size num_workers : Nat) (action : String) :
    Except String (PState α) :=
  if action = "process" ∨ action = "update" then
    if num_workers = 0 then
      Except.error "max_workers must be greater than 0"
    else
      Except.ok (schedulePrefetch
        { indicies := indicies, buffer_size := buffer_size,
          num_workers := num_workers, current_index := 0,
          buffer := [], in_progress := ∅ })
  else
    Except.error s!"Action must be one of process or update, got {action}"

/-- Observable events of a prefetcher run: a worker task for index `i`
completing successfully, a worker task for index `i` failing with
exception `e`, or the consumer successfully getting result `r`. -/
inductive PEvent (α : Type) where
  | complete (i : Nat)
  | fail (i : Nat) (e : String)
  | get (r : FrameResult α)

/-- One atomic transition of the prefetcher.  A `complete`/`fail`
transition requires a task for `i` to be outstanding and applies
`_store_frame_callback` to the successful/failed future; a `get`
transition is a `get_frame` call that returns. -/
inductive PStep {α : Type} (act : Nat → α) :
    PState α → PEvent α → PState α → Prop where
  | complete {s t : PState α} {i : Nat}
      (hi : i ∈ s.in_progress)
      (hs : storeFrameCallback (Except.ok (mkFrameResult act i)) s = t) :
      PStep act s (PEvent.complete i) t
  | fail {s t : PState α} {i : Nat} {e : String}
      (hi : i ∈ s.in_progress)
      (hs : storeFrameCallback (Except.error e) s = t) :
      PStep act s (PEvent.fail i e) t
  | get {s t : PState α} {i : Nat} {r : FrameResult α}
      (h : getFrame s i = GetOutcome.ok r t) :
      PStep act s (PEvent.get r) t

/-- A finite interleaving of worker completions/failures and consumer
gets. -/
inductive PTrace {α : Type} (act : Nat → α) :
    PState α → List (PEvent α) → PState α → Prop where
  | nil (s : PState α) : PTrace act s [] s
  | cons {s t u : PState α} {e : PEvent α} {evs : List (PEvent α)} :
      PStep act s e t → PTrace act t evs u → PTrace act s (e :: evs) u

/-- The results delivered to the consumer along a run, in order. -/
def getResults {α : Type} : List (PEvent α) → List (FrameResult α)
  | [] => []
  | PEvent.get r :: rest => r :: getResults rest
  | PEvent.complete _ :: rest => getResults rest
  | PEvent.fail _ _ :: rest => getResults rest

/-- States a freshly constructed prefetcher can evolve into. -/
def PReachable {α : Type} (act : Nat → α) (indicies : List Nat)
    (buffer_size num_workers : Nat) (action : String) (s : PState α) : Prop :=
  ∃ s0 evs, framePrefetcherInit α indicies buffer_size num_workers action =
      Except.ok s0 ∧ PTrace act s0 evs s

/-- Internal invariant of the prefetcher: buffer keys are distinct, no
index is both buffered and in progress, and everything buffered or in
progress lies in the current look-ahead window. -/
def PrefInv {α : Type} (s : PState α) : Prop :=
  (s.buffer.map FrameResult.index).Nodup ∧
  Disjoint (bufferKeys s) s.in_progress ∧
  bufferKeys s ∪ s.in_progress ⊆ neededIndices s

/-- Models `process_frames` (`src/framework/process_frames.py`): the
`FramePrefetcher` it constructs, with
`pool_size = min(len(indices), 32)` used for both `buffer_size` and
`num_workers` and the default action `"process"`.  The remainder of the
driver (video decoding, analysis call, encoder) is external to the
prefetcher construction this definition models. -/
def processFramesPrefetcher (α : Type) (indices : List Nat) :
    Except String (PState α) :=
  let pool_size := min indices.length 32
  framePrefetcherInit α indices pool_size pool_size "process"

/-- The identity action, used to instantiate the generic action of the
prefetcher model on concrete runs. -/
def idAct : Nat → Nat := fun i => i

/-- Concrete run of a prefetcher over `indicies = [0, 1]`,
`buffer_size = 2`, `num_workers = 1`: the state right after
construction. -/
def pw0 : PState Nat :=
  { indicies := [0, 1], buffer_size := 2, num_workers := 1,
    current_index := 0, buffer := [], in_progress := {0, 1} }

/-- The run of `pw0` after the task for index `1` completes first
(out of order). -/
def pw1 : PState Nat :=
  { indicies := [0, 1], buffer_size := 2, num_workers := 1,
    current_index := 0, buffer := [⟨1, 1⟩], in_progress := {0} }

/-- The run of `pw0` after both tasks completed, in the order 1, 0. -/
def pw2 : PState Nat :=
  { indicies := [0, 1], buffer_size := 2, num_workers := 1,
    current_index := 0, buffer := [⟨1, 1⟩, ⟨0, 0⟩], in_progress := ∅ }

/-- The run of `pw0` after the consumer got frame `0`. -/
def pw3 : PState Nat :=
  { indicies := [0, 1], buffer_size := 2, num_workers := 1,
    current_index := 1, buffer := [⟨1, 1⟩], in_progress := ∅ }

/-- The run of `pw0` after the consumer got frames `0` and `1`. -/
def pw4 : PState Nat :=
  { indicies := [0, 1], buffer_size := 2, num_workers := 1,
    current_index := 2, buffer := [], in_progress := ∅ }

/-- The state of a prefetcher freshly constructed over
`indicies = [5, 6, 7]` with `buffer_size = 3`, `num_workers = 2`. -/
def pw567 : PState Unit :=
  { indicies := [5, 6, 7], buffer_size := 3, num_workers := 2,
    current_index := 0, buffer := [], in_progress := {5, 6, 7} }

/-- The state the Pipeline Driver prefetcher reaches right after
construction over 40 indices: both pool parameters capped at 32. -/
def pwRange : PState Unit :=
  { indicies := List.range 40, buffer_size := 32, num_workers := 32,
    current_index := 0, buffer := [], in_progress := (List.range 32).toFinset }

/-- Labels returned by the external Groundlight query service
(`groundlight.Label`): a small closed set with an explicit unclear
value. -/
inductive GLLabel where
  | YES
  | NO
  | UNCLEAR
deriving DecidableEq

/-- The part of a Groundlight `ImageQuery` consumed by `RobotFrame`: the
query id and the result label and confidence.  The confidence is a float
in the source; only its ordering against the threshold is used, modelled
over the rationals. -/
structure ImageQuery where
  id : String
  label : GLLabel
  confidence : ℚ
deriving DecidableEq

/-- The metadata record a `RobotFrame` is constructed with
(`initial_metadata` in `RobotFrame.__init__`): the query id used for the
frame and the current best answer, both initially null. -/
structure RobotMetadata where
  iq_id : Option String
  is_upside_down : Option Bool
deriving DecidableEq

/-- The `confidence_threshold=0.9` of the shared robot detector created by
`RobotFrame.robot_detector`. -/
def robotDetectorConfidenceThreshold : ℚ := 9 / 10

/-- Models `RobotFrame._update_metadata(iq)`: always record the query id; store
the answer only when the result is confident (confidence at or above the
detector threshold) and its label is not UNCLEAR; then save.  The returned
record is both the new `self.metadata` and what `save_metadata`
persists. -/
def updateMetadata (threshold : ℚ) (m : RobotMetadata) (iq : ImageQuery) :
    RobotMetadata :=
  let m1 := { m with iq_id := some iq.id }
  if threshold ≤ iq.confidence ∧ iq.label ≠ GLLabel.UNCLEAR then
    { m1 with is_upside_down := some (iq.label == GLLabel.YES) }
  else
    m1

/-- Models `RobotFrame.process_frame()` on a fresh instance whose loaded metadata
is `m`: if `iq_id` is null, submit one `ask_ml` query (whose reply is
`askResult`) and update the metadata; otherwise do nothing.  Returns the
metadata carried by the returned `ProcessedFrame` together with the number
of external queries issued. -/
def processFrame (threshold : ℚ) (askResult : ImageQuery)
    (m : RobotMetadata) : RobotMetadata × Nat :=
  match m.iq_id with
  | some _ => (m, 0)
  | none => (updateMetadata threshold m askResult, 1)

/-- The message of the `ValueError` raised by `update_frame` when the
frame has no recorded query id. -/
def updateFrameMessage (index : Nat) : String :=
  s!"Frame {index} has no iq_id. Use process_frame to query for an answer first before trying to update."

/-- Models `RobotFrame.update_frame()` on a fresh instance whose loaded metadata
is `m`: fail if no query id is recorded; re-read the query status
(`get_image_query`, whose reply is `getResult`) only when the stored
answer is still null; otherwise do nothing.  Returns the new metadata and
the number of `get_image_query` calls. -/
def updateFrame (threshold : ℚ) (index : Nat) (getResult : ImageQuery)
    (m : RobotMetadata) : Except String (RobotMetadata × Nat) :=
  match m.iq_id with
  | none => Except.error (updateFrameMessage index)
  | some _ =>
      match m.is_upside_down with
      | none => Except.ok (updateMetadata threshold m getResult, 1)
      | some _ => Except.ok (m, 0)

/-- Python `key in record` for a metadata record modelled as an
association list (a JSON object: unique keys, insertion order). -/
def hasKey {V : Type} (k : String) : List (String × V) → Bool
  | [] => false
  | kv :: rest => if kv.1 = k then true else hasKey k rest

/-- Python `record[key]` lookup for the association-list record. -/
def lookupKey {V : Type} (k : String) : List (String × V) → Option V
  | [] => none
  | kv :: rest => if kv.1 = k then some kv.2 else lookupKey k rest

/-- The loop of `Frame.load_metadata` over `self.initial_metadata.items()`:
add each default key absent from the loaded record (a Python dict gains a
new key at the end; existing keys are left untouched). -/
def mergeMissingKeys {V : Type} (existing initial : List (String × V)) :
    List (String × V) :=
  initial.foldl (fun acc kv => if hasKey kv.1 acc then acc else acc ++ [kv])
    existing

/-- Models `Frame.load_metadata`: from the persisted record (`none` when the
metadata file does not exist) and `self.initial_metadata`, produce the
pair of the in-memory `self.metadata` and the record that
`save_metadata` writes back. -/
def loadMetadata {V : Type} (stored : Option (List (String × V)))
    (initial : List (String × V)) :
    List (String × V) × List (String × V) :=
  match stored with
  | some existing =>
      let merged := mergeMissingKeys existing initial
      (merged, merged)
  | none => (initial, initial)

@[simp] lemma schedulePrefetch_indicies {α : Type} (s : PState α) :
    (schedulePrefetch s).indicies = s.indicies := rfl

@[simp] lemma schedulePrefetch_buffer_size {α : Type} (s : PState α) :
    (schedulePrefetch s).buffer_size = s.buffer_size := rfl

@[simp] lemma schedulePrefetch_num_workers {α : Type} (s : PState α) :
    (schedulePrefetch s).num_workers = s.num_workers := rfl

@[simp] lemma schedulePrefetch_current_index {α : Type} (s : PState α) :
    (schedulePrefetch s).current_index = s.current_index := rfl

@[simp] lemma schedulePrefetch_buffer {α : Type} (s : PState α) :
    (schedulePrefetch s).buffer = s.buffer := rfl

@[simp] lemma storeFrameCallback_error {α : Type} (e : String) (s : PState α) :
    storeFrameCallback (Except.error e) s = s := rfl

@[simp] lemma storeFrameCallback_ok_indicies {α : Type} (r : FrameResult α)
    (s : PState α) : (storeFrameCallback (Except.ok r) s).indicies = s.indicies := rfl

@[simp] lemma storeFrameCallback_ok_buffer_size {α : Type} (r : FrameResult α)
    (s : PState α) :
    (storeFrameCallback (Except.ok r) s).buffer_size = s.buffer_size := rfl

@[simp] lemma storeFrameCallback_ok_num_workers {α : Type} (r : FrameResult α)
    (s : PState α) :
    (storeFrameCallback (Except.ok r) s).num_workers = s.num_workers := rfl

@[simp] lemma storeFrameCallback_ok_current_index {α : Type} (r : FrameResult α)
    (s : PState α) :
    (storeFrameCallback (Except.ok r) s).current_index = s.current_index := rfl

@[simp] lemma storeFrameCallback_ok_in_progress {α : Type} (r : FrameResult α)
    (s : PState α) :
    (storeFrameCallback (Except.ok r) s).in_progress =
      s.in_progress.erase r.index := rfl

@[simp] lemma storeFrameCallback_ok_buffer {α : Type} (r : FrameResult α)
    (s : PState α) :
    (storeFrameCallback (Except.ok r) s).buffer = dictInsert r s.buffer := rfl

@[simp] lemma bufferKeys_schedulePrefetch {α : Type} (s : PState α) :
    bufferKeys (schedulePrefetch s) = bufferKeys s := rfl

@[simp] lemma neededIndices_schedulePrefetch {α : Type} (s : PState α) :
    neededIndices (schedulePrefetch s) = neededIndices s := rfl

lemma mem_bufferKeys {α : Type} {s : PState α} {x : Nat} :
    x ∈ bufferKeys s ↔ x ∈ s.buffer.map FrameResult.index := by
  simp [bufferKeys]

lemma indicesToFetch_subset_needed {α : Type} (s : PState α) :
    indicesToFetch s ⊆ neededIndices s :=
  (Finset.sdiff_subset).trans Finset.sdiff_subset

lemma disjoint_indicesToFetch_bufferKeys {α : Type} (s : PState α) :
    Disjoint (indicesToFetch s) (bufferKeys s) := by
  rw [Finset.disjoint_left]
  intro x hx
  simp only [indicesToFetch, Finset.mem_sdiff] at hx
  exact hx.1.2

lemma disjoint_indicesToFetch_in_progress {α : Type} (s : PState α) :
    Disjoint (indicesToFetch s) s.in_progress := by
  rw [Finset.disjoint_left]
  intro x hx
  simp only [indicesToFetch, Finset.mem_sdiff] at hx
  exact hx.2

lemma prefInv_schedulePrefetch {α : Type} {s : PState α} (h : PrefInv s) :
    PrefInv (schedulePrefetch s) := by
  obtain ⟨hnd, hdis, hsub⟩ := h
  refine ⟨hnd, ?_, ?_⟩
  · show Disjoint (bufferKeys s) (s.in_progress ∪ indicesToFetch s)
    rw [Finset.disjoint_union_right]
    exact ⟨hdis, (disjoint_indicesToFetch_bufferKeys s).symm⟩
  · show bufferKeys s ∪ (s.in_progress ∪ indicesToFetch s) ⊆ neededIndices s
    rw [← Finset.union_assoc]
    exact Finset.union_subset hsub (indicesToFetch_subset_needed s)

lemma prefInv_store_ok {α : Type} {s : PState α} {r : FrameResult α}
    (hr : r.index ∈ s.in_progress) (h : PrefInv s) :
    PrefInv (storeFrameCallback (Except.ok r) s) := by
  obtain ⟨hnd, hdis, hsub⟩ := h
  have hnotbuf : r.index ∉ s.buffer.map FrameResult.index := by
    intro hmem
    exact (Finset.disjoint_left.mp hdis (mem_bufferKeys.mpr hmem)) hr
  have hbuf : dictInsert r s.buffer = s.buffer ++ [r] := by
    simp [dictInsert, hnotbuf]
  have hkeys : bufferKeys (storeFrameCallback (Except.ok r) s) =
      bufferKeys s ∪ {r.index} := by
    simp [bufferKeys, hbuf]
  refine ⟨?_, ?_, ?_⟩
  · show ((dictInsert r s.buffer).map FrameResult.index).Nodup
    rw [hbuf]
    simp only [List.map_append, List.map_cons, List.map_nil]
    exact List.nodup_append.mpr ⟨hnd, List.nodup_singleton _,
      by intro x hx hx1; simp at hx1; subst hx1; exact hnotbuf hx⟩
  · rw [hkeys, storeFrameCallback_ok_in_progress, Finset.disjoint_union_left]
    constructor
    · exact hdis.mono_right (Finset.erase_subset _ _)
    · rw [Finset.disjoint_singleton_left]
      exact Finset.not_mem_erase _ _
  · rw [hkeys, storeFrameCallback_ok_in_progress]
    have hneed : neededIndices (storeFrameCallback (Except.ok r) s) =
        neededIndices s := rfl
    rw [hneed]
    have h1 : bufferKeys s ⊆ neededIndices s :=
      (Finset.subset_union_left).trans hsub
    have h2 : s.in_progress ⊆ neededIndices s :=
      (Finset.subset_union_right).trans hsub
    refine Finset.union_subset (Finset.union_subset h1 ?_)
      ((Finset.erase_subset _ _).trans h2)
    rw [Finset.singleton_subset_iff]
    exact h2 hr

lemma popKey_spec {α : Type} {k : Nat} {buf : List (FrameResult α)}
    {r : FrameResult α} {buf1 : List (FrameResult α)}
    (h : popKey k buf = some (r, buf1)) :
    r.index = k ∧
      List.Sublist (buf1.map FrameResult.index) (buf.map FrameResult.index) ∧
      (buf.map FrameResult.index).Perm (k :: buf1.map FrameResult.index) := by
  induction buf generalizing buf1 with
  | nil => simp [popKey] at h
  | cons a rest ih =>
    rw [popKey] at h
    by_cases ha : a.index = k
    · rw [if_pos ha] at h
      simp only [Option.some.injEq, Prod.mk.injEq] at h
      obtain ⟨hr, hb⟩ := h
      subst hr; subst hb
      refine ⟨ha, List.sublist_cons_self _ _, ?_⟩
      simp [ha]

    · rw [if_neg ha] at h
      cases hp : popKey k rest with
      | none => rw [hp] at h; simp at h
      | some p =>
        obtain ⟨p1, p2⟩ := p
        rw [hp] at h
        simp only [Option.map_some', Option.some.injEq, Prod.mk.injEq] at h
        obtain ⟨hr, hb⟩ := h
        subst hr; subst hb
        obtain ⟨hi, hsl, hperm⟩ := ih hp
        refine ⟨hi, ?_, ?_⟩
        · simpa using hsl.cons₂ a.index
        · simp only [List.map_cons]
          exact (List.Perm.cons a.index hperm).trans
            (List.Perm.swap k a.index (p2.map FrameResult.index))

lemma getFrame_ok_spec {α : Type} {s : PState α} {i : Nat} {r : FrameResult α}
    {t : PState α} (hg : getFrame s i = GetOutcome.ok r t) :
    s.indicies[s.current_index]? = some i ∧
      ∃ buf1, popKey i s.buffer = some (r, buf1) ∧
        t = schedulePrefetch
          { s with buffer := buf1, current_index := s.current_index + 1 } := by
  unfold getFrame at hg
  split at hg
  · exact absurd hg (by simp)
  · rename_i expected hge
    split at hg
    · exact absurd hg (by simp)
    · rename_i hi
      have hie : i = expected := of_not_not hi
      subst hie
      split at hg
      · exact absurd hg (by simp)
      · rename_i r1 buf1 hp
        simp only [GetOutcome.ok.injEq] at hg
        obtain ⟨hr, ht⟩ := hg
        subst hr; subst ht
        exact ⟨hge, buf1, hp, rfl⟩

lemma mem_neededIndices_succ {α : Type} {s : PState α} {j i : Nat}
    (hge : s.indicies[s.current_index]? = some i)
    (hj : j ∈ neededIndices s) (hne : j ≠ i) :
    j ∈ neededIndices
      { s with buffer := s.buffer, current_index := s.current_index + 1 } := by
  obtain ⟨hlt, hel⟩ := List.getElem?_eq_some.mp hge
  have hdrop : s.indicies.drop s.current_index =
      i :: s.indicies.drop (s.current_index + 1) := by
    rw [List.drop_eq_getElem_cons hlt, hel]
  simp only [neededIndices, List.mem_toFinset] at hj ⊢
  rw [hdrop] at hj
  cases hb : s.buffer_size with
  | zero => rw [hb] at hj; simp at hj
  | succ b =>
    rw [hb] at hj
    rw [List.take_succ_cons] at hj
    rcases List.mem_cons.mp hj with h | h
    · exact absurd h hne
    · exact (List.take_prefix_take_left _ (Nat.le_succ b)).subset h

lemma prefInv_getFrame {α : Type} {s : PState α} {i : Nat} {r : FrameResult α}
    {t : PState α} (hg : getFrame s i = GetOutcome.ok r t) (h : PrefInv s) :
    PrefInv t := by
  obtain ⟨hge, buf1, hp, ht⟩ := getFrame_ok_spec hg
  obtain ⟨hri, hsl, hperm⟩ := popKey_spec hp
  obtain ⟨hnd, hdis, hsub⟩ := h
  have hndcons : (i :: buf1.map FrameResult.index).Nodup :=
    hperm.nodup_iff.mp hnd
  have hnodup1 : (buf1.map FrameResult.index).Nodup := hndcons.of_cons
  have hinot : i ∉ buf1.map FrameResult.index :=
    (List.nodup_cons.mp hndcons).1
  have himem : i ∈ s.buffer.map FrameResult.index :=
    hperm.mem_iff.mpr (List.mem_cons_self _ _)
  subst ht
  set mid : PState α :=
    { s with buffer := buf1, current_index := s.current_index + 1 } with hmid
  have hkeysmid : bufferKeys mid ⊆ bufferKeys s := by
    intro x hx
    rw [mem_bufferKeys] at hx ⊢
    exact hsl.subset hx
  refine prefInv_schedulePrefetch ⟨hnodup1, ?_, ?_⟩
  · exact hdis.mono_left hkeysmid
  · intro j hj
    have hjs : j ∈ bufferKeys s ∪ s.in_progress := by
      rcases Finset.mem_union.mp hj with hjk | hjp
      · exact Finset.mem_union_left _ (hkeysmid hjk)
      · exact Finset.mem_union_right _ hjp
    have hjne : j ≠ i := by
      rcases Finset.mem_union.mp hj with hjk | hjp
      · intro he; subst he
        exact hinot (mem_bufferKeys.mp hjk)
      · intro he; subst he
        exact (Finset.disjoint_left.mp hdis (mem_bufferKeys.mpr himem)) hjp
    exact mem_neededIndices_succ hge (hsub hjs) hjne

lemma prefInv_step {α : Type} {act : Nat → α} {s t : PState α} {e : PEvent α}
    (hstep : PStep act s e t) (h : PrefInv s) : PrefInv t := by
  cases hstep with
  | complete hi hs =>
      subst hs
      exact prefInv_store_ok hi h
  | fail hi hs =>
      subst hs
      simpa using h
  | get hg => exact prefInv_getFrame hg h

lemma prefInv_trace {α : Type} {act : Nat → α} {s t : PState α}
    {evs : List (PEvent α)} (ht : PTrace act s evs t) (h : PrefInv s) :
    PrefInv t := by
  induction ht with
  | nil => exact h
  | cons hstep htr ih => exact ih (prefInv_step hstep h)

lemma framePrefetcherInit_ok {α : Type} {indicies : List Nat}
    {buffer_size num_workers : Nat} {action : String} {s0 : PState α}
    (h : framePrefetcherInit α indicies buffer_size num_workers action =
      Except.ok s0) :
    s0 = schedulePrefetch
      { indicies := indicies, buffer_size := buffer_size,
        num_workers := num_workers, current_index := 0,
        buffer := [], in_progress := ∅ } := by
  unfold framePrefetcherInit at h
  split at h
  · split at h
    · exact absurd h (by simp)
    · simp only [Except.ok.injEq] at h
      exact h.symm
  · exact absurd h (by simp)

lemma prefInv_init {α : Type} {indicies : List Nat}
    {buffer_size num_workers : Nat} {action : String} {s0 : PState α}
    (h : framePrefetcherInit α indicies buffer_size num_workers action =
      Except.ok s0) : PrefInv s0 := by
  rw [framePrefetcherInit_ok h]
  refine prefInv_schedulePrefetch ⟨?_, ?_, ?_⟩
  · simp
  · simp [bufferKeys]
  · simp [bufferKeys]

lemma preachable_inv {α : Type} {act : Nat → α} {indicies : List Nat}
    {buffer_size num_workers : Nat} {action : String} {s : PState α}
    (h : PReachable act indicies buffer_size num_workers action s) :
    PrefInv s := by
  obtain ⟨s0, evs, h0, ht⟩ := h
  exact prefInv_trace ht (prefInv_init h0)

lemma ptrace_getResults {α : Type} {act : Nat → α} {s t : PState α}
    {evs : List (PEvent α)} (ht : PTrace act s evs t) :
    (getResults evs).map FrameResult.index =
      (s.indicies.drop s.current_index).take (getResults evs).length := by
  induction ht with
  | nil => simp [getResults]
  | cons hstep htr ih =>
    cases hstep with
    | complete hi hs =>
        subst hs
        simpa [getResults] using ih
    | fail hi hs =>
        subst hs
        simpa [getResults] using ih
    | get hg =>
        obtain ⟨hge, buf1, hp, hts⟩ := getFrame_ok_spec hg
        obtain ⟨hri, hsl, hperm⟩ := popKey_spec hp
        obtain ⟨hlt, hel⟩ := List.getElem?_eq_some.mp hge
        subst hts
        simp only [getResults, List.map_cons, List.length_cons] at ih ⊢
        simp only [schedulePrefetch_indicies, schedulePrefetch_current_index] at ih
        rw [List.drop_eq_getElem_cons hlt, hel, List.take_succ_cons, hri]
        exact congrArg _ ih

lemma pwStep1 : PStep idAct pw0 (PEvent.complete 1) pw1 :=
  PStep.complete (by decide) (by decide)

lemma pwStep2 : PStep idAct pw1 (PEvent.complete 0) pw2 :=
  PStep.complete (by decide) (by decide)

lemma pwGet3 : getFrame pw2 0 = GetOutcome.ok ⟨0, 0⟩ pw3 := by decide

lemma pwStep3 : PStep idAct pw2 (PEvent.get ⟨0, 0⟩) pw3 := PStep.get pwGet3

lemma pwGet4 : getFrame pw3 1 = GetOutcome.ok ⟨1, 1⟩ pw4 := by decide

lemma pwStep4 : PStep idAct pw3 (PEvent.get ⟨1, 1⟩) pw4 := PStep.get pwGet4

lemma pwTrace02 : PTrace idAct pw0 [PEvent.complete 1, PEvent.complete 0] pw2 :=
  PTrace.cons pwStep1 (PTrace.cons pwStep2 (PTrace.nil pw2))

lemma pwTrace04 : PTrace idAct pw0
    [PEvent.complete 1, PEvent.complete 0, PEvent.get ⟨0, 0⟩,
      PEvent.get ⟨1, 1⟩] pw4 :=
  PTrace.cons pwStep1 (PTrace.cons pwStep2
    (PTrace.cons pwStep3 (PTrace.cons pwStep4 (PTrace.nil pw4))))

lemma pwInit : framePrefetcherInit Nat [0, 1] 2 1 "process" = Except.ok pw0 := by
  decide

/-- C1: for every index sequence accepted at construction and every
buffer/worker parameters the constructor accepts, along any interleaving
of worker completions, worker failures and consumer gets, the sequence of
results returned by `get_frame` carries `index` fields that are exactly
the corresponding prefix of `indicies`, in order — regardless of the order
in which worker tasks complete. -/
theorem c1_order_invariant {α : Type} (act : Nat → α) (indicies : List Nat)
    (buffer_size num_workers : Nat) (action : String) (s0 : PState α)
    (evs : List (PEvent α)) {t : PState α}
    (h0 : framePrefetcherInit α indicies buffer_size num_workers action =
      Except.ok s0)
    (ht : PTrace act s0 evs t) :
    (getResults evs).map FrameResult.index =
      indicies.take (getResults evs).length := by
  have h1 := ptrace_getResults ht
  rw [framePrefetcherInit_ok h0] at h1
  simpa using h1

/-- Witness for C1: the run over `[0, 1]` in which the task for index 1
completes before the task for index 0 still delivers indices `[0, 1]`. -/
theorem c1_order_invariant_witness :
    ([(⟨0, 0⟩ : FrameResult Nat), ⟨1, 1⟩]).map FrameResult.index =
      [0, 1].take 2 :=
  c1_order_invariant idAct [0, 1] 2 1 "process" pw0
    [PEvent.complete 1, PEvent.complete 0, PEvent.get ⟨0, 0⟩,
      PEvent.get ⟨1, 1⟩]
    pwInit pwTrace04

/-- C2: in every reachable state of a `FramePrefetcher`, each index has at
most one task buffered (buffer keys are distinct), no index is both
buffered and in flight, the scheduling step launches exactly the window
indices minus the buffered indices minus the in-progress indices, and it
never launches an index already buffered or already in progress. -/
theorem c2_no_duplicate_launch {α : Type} (act : Nat → α)
    (indicies : List Nat) (buffer_size num_workers : Nat) (action : String)
    (s : PState α)
    (h : PReachable act indicies buffer_size num_workers action s) :
    (s.buffer.map FrameResult.index).Nodup ∧
    Disjoint (bufferKeys s) s.in_progress ∧
    indicesToFetch s = (neededIndices s \ bufferKeys s) \ s.in_progress ∧
    Disjoint (indicesToFetch s) (bufferKeys s ∪ s.in_progress) := by
  obtain ⟨hnd, hdis, hsub⟩ := preachable_inv h
  refine ⟨hnd, hdis, rfl, ?_⟩
  rw [Finset.disjoint_union_right]
  exact ⟨disjoint_indicesToFetch_bufferKeys s,
    disjoint_indicesToFetch_in_progress s⟩

/-- Witness for C2 at the concrete reachable state `pw2` (both results
buffered, nothing in flight). -/
theorem c2_no_duplicate_launch_witness :
    (pw2.buffer.map FrameResult.index).Nodup ∧
    Disjoint (bufferKeys pw2) pw2.in_progress ∧
    indicesToFetch pw2 = (neededIndices pw2 \ bufferKeys pw2) \ pw2.in_progress ∧
    Disjoint (indicesToFetch pw2) (bufferKeys pw2 ∪ pw2.in_progress) :=
  c2_no_duplicate_launch idAct [0, 1] 2 1 "process" pw2
    ⟨pw0, [PEvent.complete 1, PEvent.complete 0], pwInit, pwTrace02⟩

/-- C5: in every reachable state of a `FramePrefetcher` the buffer holds
at most `buffer_size` entries in total, hence in particular at most
`buffer_size` entries satisfying any predicate (such as having an index
beyond the consumption cursor): look-ahead is bounded by the window size
for every sequence and every interleaving. -/
theorem c5_bounded_buffer {α : Type} (act : Nat → α) (indicies : List Nat)
    (buffer_size num_workers : Nat) (action : String) (s : PState α)
    (h : PReachable act indicies buffer_size num_workers action s) :
    s.buffer.length ≤ s.buffer_size ∧
    ∀ P : FrameResult α → Bool, (s.buffer.filter P).length ≤ s.buffer_size := by
  obtain ⟨hnd, hdis, hsub⟩ := preachable_inv h
  have h1 : (bufferKeys s).card = s.buffer.length := by
    rw [bufferKeys, List.toFinset_card_of_nodup hnd, List.length_map]
  have h2 : (bufferKeys s).card ≤ (neededIndices s).card :=
    Finset.card_le_card ((Finset.subset_union_left).trans hsub)
  have h3 : (neededIndices s).card ≤ s.buffer_size := by
    refine le_trans (List.toFinset_card_le _) ?_
    rw [List.length_take]
    exact Nat.min_le_left _ _
  have hlen : s.buffer.length ≤ s.buffer_size := by omega
  exact ⟨hlen,
    fun P => le_trans (List.length_filter_le P s.buffer) hlen⟩

/-- Witness for C5 at the concrete reachable state `pw2`, whose buffer is
full (two entries with window size two). -/
theorem c5_bounded_buffer_witness : pw2.buffer.length ≤ pw2.buffer_size :=
  (c5_bounded_buffer idAct [0, 1] 2 1 "process" pw2
    ⟨pw0, [PEvent.complete 1, PEvent.complete 0], pwInit, pwTrace02⟩).1

/-- C9: whenever a next expected index exists, calling `get_frame` with
any other index fails with the out-of-order `ValueError` whose message
names the expected index; the state is not touched. -/
theorem c9_out_of_order_rejected {α : Type} (s : PState α) (i e : Nat)
    (h1 : s.indicies[s.current_index]? = some e) (h2 : i ≠ e) :
    getFrame s i = GetOutcome.outOfOrder (outOfOrderMessage i e) := by
  unfold getFrame
  rw [h1]
  simp [h2]

/-- Witness for C9, the scenario of the claim: a prefetcher freshly
constructed over `[5, 6, 7]`; `get_frame(6)` called first fails with the
out-of-order error whose message names the expected index 5. -/
theorem c9_out_of_order_rejected_witness :
    framePrefetcherInit Unit [5, 6, 7] 3 2 "process" = Except.ok pw567 ∧
    getFrame pw567 6 = GetOutcome.outOfOrder (outOfOrderMessage 6 5) ∧
    outOfOrderMessage 6 5 =
      "Index requested 6 is out of order. This class expects frames to be consumed in the order specified by indicies passed to the constructor. It expected 5 to be requested next." :=
  ⟨by decide, c9_out_of_order_rejected pw567 6 5 (by decide) (by decide),
    by decide⟩

/-- C3 (refuting the claim, which matches the code intent but not the
code): when a worker task fails, `_store_frame_callback` hits the `except`
branch before reaching `self.in_progress.remove`, so the state is
completely unchanged: the failed index stays in `in_progress` forever,
and consequently `_schedule_prefetch` never relaunches it, so the index
cannot be retried and the consumer waiting on it polls forever. -/
theorem c3_failed_task_not_released {α : Type} (s : PState α) (i : Nat)
    (e : String) (h : i ∈ s.in_progress) :
    storeFrameCallback (Except.error e) s = s ∧
    i ∈ (storeFrameCallback (Except.error e) s).in_progress ∧
    i ∉ indicesToFetch (storeFrameCallback (Except.error e) s) := by
  refine ⟨rfl, h, ?_⟩
  simp only [storeFrameCallback_error, indicesToFetch, Finset.mem_sdiff]
  intro hx
  exact hx.2 h

/-- Witness for C3: on the fresh prefetcher over `[0, 1]`, a failing task
for index 0 leaves the state untouched, keeps 0 in flight, and keeps 0
out of every subsequent launch set. -/
theorem c3_failed_task_not_released_witness :
    (0 : Nat) ∈ pw0.in_progress ∧
    (storeFrameCallback (Except.error "boom") pw0 = pw0 ∧
     (0 : Nat) ∈ (storeFrameCallback (Except.error "boom") pw0).in_progress ∧
     (0 : Nat) ∉ indicesToFetch (storeFrameCallback (Except.error "boom") pw0)) :=
  ⟨by decide, c3_failed_task_not_released pw0 0 "boom" (by decide)⟩

/-- Counterexample to C4 as stated: construction with an empty index
sequence and `buffer_size = 0` (both invalid according to the claim)
succeeds without any error. -/
theorem c4_counterexample :
    framePrefetcherInit Unit [] 0 1 "process" =
      Except.ok
        { indicies := [], buffer_size := 0, num_workers := 1,
          current_index := 0, buffer := [], in_progress := ∅ } := by
  decide

/-- C4 as amended: construction fails exactly for an unknown action name
(the explicit `ValueError` of the dispatch) or a non-positive worker count
(the `ValueError` of `ThreadPoolExecutor`); an empty index sequence and a
non-positive `buffer_size` are accepted without error. -/
theorem c4_construction_errors (α : Type) (indicies : List Nat)
    (buffer_size num_workers : Nat) (action : String) :
    (∃ m, framePrefetcherInit α indicies buffer_size num_workers action =
      Except.error m) ↔
    (¬(action = "process" ∨ action = "update") ∨ num_workers = 0) := by
  unfold framePrefetcherInit
  by_cases ha : action = "process" ∨ action = "update"
  · by_cases hw : num_workers = 0
    · simp [ha, hw]
    · simp [ha, hw]
  · simp [ha]

/-- C10: whenever the Pipeline Driver constructs its prefetcher, the
resulting state has `buffer_size` and `num_workers` both equal to
`min(len(indices), 32)`, and both are therefore capped at 32. -/
theorem c10_driver_pool_size {α : Type} (indices : List Nat) (s : PState α)
    (h : processFramesPrefetcher α indices = Except.ok s) :
    s.buffer_size = min indices.length 32 ∧
    s.num_workers = min indices.length 32 ∧
    s.buffer_size ≤ 32 ∧ s.num_workers ≤ 32 := by
  unfold processFramesPrefetcher at h
  have hs := framePrefetcherInit_ok h
  subst hs
  refine ⟨rfl, rfl, ?_, ?_⟩ <;>
    exact Nat.min_le_right indices.length 32

/-- Witness for C10: with 40 indices the driver prefetcher is constructed
with both parameters capped at 32. -/
theorem c10_driver_pool_size_witness :
    pwRange.buffer_size = min (List.range 40).length 32 ∧
    pwRange.num_workers = min (List.range 40).length 32 ∧
    pwRange.buffer_size ≤ 32 ∧ pwRange.num_workers ≤ 32 :=
  c10_driver_pool_size (List.range 40) pwRange (by decide)

lemma updateMetadata_iq_id (threshold : ℚ) (m : RobotMetadata)
    (iq : ImageQuery) : (updateMetadata threshold m iq).iq_id = some iq.id := by
  unfold updateMetadata
  split <;> rfl

lemma updateMetadata_is_upside_down (threshold : ℚ) (m : RobotMetadata)
    (iq : ImageQuery) :
    (updateMetadata threshold m iq).is_upside_down =
      if threshold ≤ iq.confidence ∧ iq.label ≠ GLLabel.UNCLEAR then
        some (iq.label == GLLabel.YES)
      else m.is_upside_down := by
  unfold updateMetadata
  split <;> simp_all

/-- C6: `process` is idempotent with respect to the recorded answer token:
when the loaded metadata already holds a non-null `iq_id`, `process_frame`
on a fresh instance issues no external query and returns the cached state
unchanged; and two successive `process_frame` calls on fresh instances
(the second loading what the first persisted) issue at most one external
query in total and yield identical metadata. -/
theorem c6_process_idempotent (threshold : ℚ) (iq1 iq2 : ImageQuery)
    (m : RobotMetadata) :
    (m.iq_id ≠ none → processFrame threshold iq1 m = (m, 0)) ∧
    (processFrame threshold iq2 (processFrame threshold iq1 m).1).1 =
      (processFrame threshold iq1 m).1 ∧
    (processFrame threshold iq1 m).2 +
      (processFrame threshold iq2 (processFrame threshold iq1 m).1).2 ≤ 1 := by
  cases hm : m.iq_id with
  | some t => simp [processFrame, hm]
  | none =>
      have h1 : (updateMetadata threshold m iq1).iq_id = some iq1.id :=
        updateMetadata_iq_id threshold m iq1
      refine ⟨fun h => absurd rfl h, ?_, ?_⟩ <;>
        simp [processFrame, hm, h1]

/-- Witness for C6: with an `iq_id` already recorded, `process_frame`
issues no query and returns the cached metadata. -/
theorem c6_process_idempotent_witness :
    processFrame robotDetectorConfidenceThreshold
      ⟨"iq_2", GLLabel.NO, 1 / 2⟩ ⟨some "iq_1", some true⟩ =
      (⟨some "iq_1", some true⟩, 0) :=
  (c6_process_idempotent robotDetectorConfidenceThreshold
    ⟨"iq_2", GLLabel.NO, 1 / 2⟩ ⟨"iq_2", GLLabel.NO, 1 / 2⟩
    ⟨some "iq_1", some true⟩).1 (by decide)

/-- C7: the shared metadata-update policy never resets a non-null answer
to null; the stored answer changes only when the new external result is
confident (at or above the threshold) and unambiguous (label not
UNCLEAR); a low-confidence or ambiguous result leaves the existing
answer — including a still-null one — untouched.  This holds for the
update routine itself and for both actions built on it. -/
theorem c7_answer_monotonic (threshold : ℚ) (iq : ImageQuery)
    (m : RobotMetadata) :
    ((updateMetadata threshold m iq).is_upside_down = none →
        m.is_upside_down = none) ∧
    ((updateMetadata threshold m iq).is_upside_down ≠ m.is_upside_down →
        threshold ≤ iq.confidence ∧ iq.label ≠ GLLabel.UNCLEAR) ∧
    (¬(threshold ≤ iq.confidence ∧ iq.label ≠ GLLabel.UNCLEAR) →
        (updateMetadata threshold m iq).is_upside_down = m.is_upside_down) ∧
    ((processFrame threshold iq m).1.is_upside_down = none →
        m.is_upside_down = none) ∧
    ((processFrame threshold iq m).1.is_upside_down ≠ m.is_upside_down →
        threshold ≤ iq.confidence ∧ iq.label ≠ GLLabel.UNCLEAR) ∧
    (¬(threshold ≤ iq.confidence ∧ iq.label ≠ GLLabel.UNCLEAR) →
        (processFrame threshold iq m).1.is_upside_down = m.is_upside_down) ∧
    (∀ index r n, updateFrame threshold index iq m = Except.ok (r, n) →
      ((r.is_upside_down = none → m.is_upside_down = none) ∧
       (r.is_upside_down ≠ m.is_upside_down →
          threshold ≤ iq.confidence ∧ iq.label ≠ GLLabel.UNCLEAR) ∧
       (¬(threshold ≤ iq.confidence ∧ iq.label ≠ GLLabel.UNCLEAR) →
          r.is_upside_down = m.is_upside_down))) := by
  have hu := updateMetadata_is_upside_down threshold m iq
  by_cases hc : threshold ≤ iq.confidence ∧ iq.label ≠ GLLabel.UNCLEAR
  · rw [if_pos hc] at hu
    refine ⟨?_, fun _ => hc, fun h => absurd hc h, ?_, fun _ => hc,
      fun h => absurd hc h, ?_⟩
    · rw [hu]; intro h; exact absurd h (by simp)
    · cases hm : m.iq_id with
      | some t => simp [processFrame, hm]
      | none => simp [processFrame, hm, hu]
    · intro index r n hr
      unfold updateFrame at hr
      cases hm : m.iq_id with
      | none => rw [hm] at hr; exact absurd hr (by simp)
      | some t =>
          rw [hm] at hr
          cases hd : m.is_upside_down with
          | none =>
              rw [hd] at hr
              simp only [Except.ok.injEq, Prod.mk.injEq] at hr
              obtain ⟨hr1, hr2⟩ := hr
              subst hr1
              refine ⟨?_, fun _ => hc, fun h => absurd hc h⟩
              rw [hu]; intro h; exact absurd h (by simp)
          | some b =>
              rw [hd] at hr
              simp only [Except.ok.injEq, Prod.mk.injEq] at hr
              obtain ⟨hr1, hr2⟩ := hr
              subst hr1
              refine ⟨fun h => ?_, fun h => ?_, fun _ => ?_⟩ <;> simp_all
  · rw [if_neg hc] at hu
    refine ⟨?_, ?_, fun _ => hu, ?_, ?_, ?_, ?_⟩
    · rw [hu]; exact fun h => h
    · rw [hu]; intro h; exact absurd rfl h
    · cases hm : m.iq_id with
      | some t => simp [processFrame, hm]
      | none => simp [processFrame, hm, hu]
    · cases hm : m.iq_id with
      | some t => simp [processFrame, hm]
      | none =>
          simp only [processFrame, hm]
          rw [hu]
          intro h; exact absurd rfl h
    · cases hm : m.iq_id with
      | some t => intro _; simp [processFrame, hm]
      | none =>
          intro _
          simp only [processFrame, hm]
          exact hu
    · intro index r n hr
      unfold updateFrame at hr
      cases hm : m.iq_id with
      | none => rw [hm] at hr; exact absurd hr (by simp)
      | some t =>
          rw [hm] at hr
          cases hd : m.is_upside_down with
          | none =>
              rw [hd] at hr
              simp only [Except.ok.injEq, Prod.mk.injEq] at hr
              obtain ⟨hr1, hr2⟩ := hr
              subst hr1
              rw [hu, hd]
              exact ⟨fun h => h, fun h => absurd rfl h, fun _ => rfl⟩
          | some b =>
              rw [hd] at hr
              simp only [Except.ok.injEq, Prod.mk.injEq] at hr
              obtain ⟨hr1, hr2⟩ := hr
              subst hr1
              refine ⟨fun h => ?_, fun h => ?_, fun _ => ?_⟩ <;> simp_all

/-- Witness for C7: an UNCLEAR result leaves the (still-null) answer of a
processed frame untouched. -/
theorem c7_answer_monotonic_witness :
    (updateMetadata robotDetectorConfidenceThreshold
      ⟨some "iq_1", none⟩ ⟨"iq_1", GLLabel.UNCLEAR, 1⟩).is_upside_down =
      (⟨some "iq_1", none⟩ : RobotMetadata).is_upside_down :=
  (c7_answer_monotonic robotDetectorConfidenceThreshold
    ⟨"iq_1", GLLabel.UNCLEAR, 1⟩ ⟨some "iq_1", none⟩).2.2.1 (by simp)

lemma hasKey_append {V : Type} (k : String) (l1 l2 : List (String × V)) :
    hasKey k (l1 ++ l2) = (hasKey k l1 || hasKey k l2) := by
  induction l1 with
  | nil => simp [hasKey]
  | cons kv rest ih =>
      by_cases h : kv.1 = k <;> simp [hasKey, h, ih]

lemma lookupKey_append_left {V : Type} {k : String}
    {l1 : List (String × V)} (l2 : List (String × V))
    (h : hasKey k l1 = true) : lookupKey k (l1 ++ l2) = lookupKey k l1 := by
  induction l1 with
  | nil => simp [hasKey] at h
  | cons kv rest ih =>
      by_cases hk : kv.1 = k
      · simp [lookupKey, hk]
      · simp only [hasKey, if_neg hk] at h
        simp [lookupKey, hk, ih h]

lemma lookupKey_append_right {V : Type} {k : String}
    {l1 : List (String × V)} (l2 : List (String × V))
    (h : hasKey k l1 = false) : lookupKey k (l1 ++ l2) = lookupKey k l2 := by
  induction l1 with
  | nil => simp [lookupKey]
  | cons kv rest ih =>
      by_cases hk : kv.1 = k
      · simp [hasKey, hk] at h
      · simp only [hasKey, if_neg hk] at h
        simp [lookupKey, hk, ih h]

lemma mergeMissingKeys_cons {V : Type} (existing : List (String × V))
    (kv : String × V) (rest : List (String × V)) :
    mergeMissingKeys existing (kv :: rest) =
      mergeMissingKeys
        (if hasKey kv.1 existing then existing else existing ++ [kv]) rest := rfl

lemma hasKey_mergeMissingKeys {V : Type} (existing initial : List (String × V))
    (k : String) :
    hasKey k (mergeMissingKeys existing initial) =
      (hasKey k existing || hasKey k initial) := by
  induction initial generalizing existing with
  | nil => simp [mergeMissingKeys, hasKey]
  | cons kv rest ih =>
      rw [mergeMissingKeys_cons]
      by_cases hg : hasKey kv.1 existing
      · rw [if_pos hg, ih]
        by_cases hk : kv.1 = k
        · subst hk
          simp [hasKey, hg]
        · simp [hasKey, hk]
      · rw [if_neg hg, ih, hasKey_append]
        by_cases hk : kv.1 = k
        · subst hk
          simp [hasKey]
        · simp [hasKey, hk]

lemma lookupKey_mergeMissingKeys_of_hasKey {V : Type}
    (existing initial : List (String × V)) (k : String)
    (h : hasKey k existing = true) :
    lookupKey k (mergeMissingKeys existing initial) = lookupKey k existing := by
  induction initial generalizing existing with
  | nil => rfl
  | cons kv rest ih =>
      rw [mergeMissingKeys_cons]
      by_cases hg : hasKey kv.1 existing
      · rw [if_pos hg, ih existing h]
      · rw [if_neg hg]
        have hk : hasKey k (existing ++ [kv]) = true := by
          rw [hasKey_append, h, Bool.true_or]
        rw [ih _ hk, lookupKey_append_left _ h]

lemma lookupKey_eq_none_of_not_hasKey {V : Type} {k : String}
    {l : List (String × V)} (h : hasKey k l = false) :
    lookupKey k l = none := by
  induction l with
  | nil => rfl
  | cons kv rest ih =>
      by_cases hk : kv.1 = k
      · simp [hasKey, hk] at h
      · simp only [hasKey, if_neg hk] at h
        simp [lookupKey, hk, ih h]

lemma lookupKey_mergeMissingKeys_of_not_hasKey {V : Type}
    (existing initial : List (String × V)) (k : String)
    (h : hasKey k existing = false) :
    lookupKey k (mergeMissingKeys existing initial) = lookupKey k initial := by
  induction initial generalizing existing with
  | nil => exact lookupKey_eq_none_of_not_hasKey h
  | cons kv rest ih =>
      rw [mergeMissingKeys_cons]
      by_cases hk : kv.1 = k
      · have hg : hasKey kv.1 existing = false := by rw [hk]; exact h
        rw [if_neg (by rw [hg]; exact Bool.false_ne_true)]
        have hk2 : hasKey k (existing ++ [kv]) = true := by
          rw [hasKey_append, h, Bool.false_or]
          simp [hasKey, hk]
        rw [lookupKey_mergeMissingKeys_of_hasKey _ _ _ hk2,
          lookupKey_append_right _ h]
        simp [lookupKey, hk]
      · by_cases hg : hasKey kv.1 existing
        · rw [if_pos hg, ih existing h]
          simp [lookupKey, hk]
        · rw [if_neg hg]
          have h2 : hasKey k (existing ++ [kv]) = false := by
            rw [hasKey_append, h, Bool.false_or]
            simp [hasKey, hk]
          rw [ih _ h2]
          simp [lookupKey, hk]

/-- C8: loading metadata over an existing persisted record preserves every
existing key and its value, fills in exactly the default keys absent from
the record (their values taken from the defaults), and persists the merged
record back; loading with no persisted record returns and persists the
defaults.  In particular loading record `[("a", x)]` with defaults
`[("a", y), ("b", z)]` yields `[("a", x), ("b", z)]`, both in memory and
persisted. -/
theorem c8_load_metadata_merge {V : Type}
    (existing initial : List (String × V)) :
    ((∀ k, hasKey k existing = true →
        lookupKey k (loadMetadata (some existing) initial).1 =
          lookupKey k existing) ∧
     (∀ k, hasKey k existing = false →
        lookupKey k (loadMetadata (some existing) initial).1 =
          lookupKey k initial) ∧
     (∀ k, hasKey k (loadMetadata (some existing) initial).1 =
        (hasKey k existing || hasKey k initial)) ∧
     (loadMetadata (some existing) initial).2 =
       (loadMetadata (some existing) initial).1) ∧
    loadMetadata (none : Option (List (String × V))) initial =
      (initial, initial) ∧
    ∀ x y z : V, loadMetadata (some [("a", x)]) [("a", y), ("b", z)] =
      ([("a", x), ("b", z)], [("a", x), ("b", z)]) := by
  refine ⟨⟨?_, ?_, ?_, rfl⟩, rfl, fun x y z => rfl⟩
  · exact fun k hk => lookupKey_mergeMissingKeys_of_hasKey existing initial k hk
  · exact fun k hk =>
      lookupKey_mergeMissingKeys_of_not_hasKey existing initial k hk
  · exact fun k => hasKey_mergeMissingKeys existing initial k

/-- Witness for C8, the concrete scenario of the claim with numeric
values: record `{"a": 1}` and defaults `{"a": 99, "b": 2}`; the existing
key keeps its value. -/
theorem c8_load_metadata_merge_witness :
    lookupKey "a"
      (loadMetadata (some [("a", (1 : Nat))]) [("a", 99), ("b", 2)]).1 =
      lookupKey "a" [("a", (1 : Nat))] :=
  (c8_load_metadata_merge [("a", (1 : Nat))] [("a", 99), ("b", 2)]).1.1 "a"
    (by decide)

/-- Witness for the amended C4: a worker count of zero does make the
constructor fail, via the thread-pool error. -/
theorem c4_construction_errors_witness :
    framePrefetcherInit Unit [1] 1 0 "process" =
      Except.error "max_workers must be greater than 0" ∧
    (¬("process" = "process" ∨ "process" = "update") ∨ (0 : Nat) = 0) :=
  ⟨by decide, (c4_construction_errors Unit [1] 1 0 "process").mp
    ⟨"max_workers must be greater than 0", by decide⟩⟩
